import Mathlib

/-!
Verification of the `pdf-doc` document model: a shallow embedding of the
repository's core types (`In`, `Sze`, `Mrg`, `Doc`, `Par`, `Elm`) and
operations (pagination, builder setters, text substitution, attribute
resolution, persistence round-trip), with theorems settling the spec's
claims about them.

Rust `f32` scalars are modelled by Lean's `Float`; every statement about
them is definitional (no floating-point arithmetic is re-reasoned).
-/

namespace PdfDoc

/-- Points per inch (src/inch.rs `PT_PER_IN`). -/
def PT_PER_IN : Float := 72.0

/-- A length in inches (src/inch.rs `In`), a newtype over `f32`. -/
structure In where
  val : Float

/-- `impl Unit for In`: conversion to points (src/inch.rs). -/
def In.pt (i : In) : Float := i.val * PT_PER_IN

/-- `impl Add for In` (src/inch.rs). -/
instance : Add In := ⟨fun a b => ⟨a.val + b.val⟩⟩

/-- `In::default()` is `In(0.0)` (Rust `#[derive(Default)]` on a newtype over `f32`). -/
def In.dflt : In := ⟨0.0⟩

/-- A size with a width and height (src/sze.rs `Sze`). -/
structure Sze where
  width : In
  height : In

/-- `Sze::pt`: the size as a pair in points (src/sze.rs). -/
def Sze.pt (s : Sze) : Float × Float := (s.width.pt, s.height.pt)

/-- `Sze::default()` (derived): both components default. -/
def Sze.dflt : Sze := ⟨In.dflt, In.dflt⟩

/-- The 8.5in x 11in ANSI letter size (src/sze.rs `ANSI_LETTER`). -/
def ANSI_LETTER : Sze := ⟨⟨8.5⟩, ⟨11.0⟩⟩

/-- A margin with left, right, bottom, top lengths (src/mrg.rs `Mrg`). -/
structure Mrg where
  lft : In
  rht : In
  btm : In
  top : In

/-- `Mrg::width()` = left + right (src/mrg.rs). -/
def Mrg.width (m : Mrg) : In := m.lft + m.rht

/-- `Mrg::height()` = bottom + top (src/mrg.rs). -/
def Mrg.height (m : Mrg) : In := m.btm + m.top

/-- `Mrg::default()` (derived): all components default. -/
def Mrg.dflt : Mrg := ⟨In.dflt, In.dflt, In.dflt, In.dflt⟩

/-- A margin of 1in on every side (src/mrg.rs `MRG_IN_1`). -/
def MRG_IN_1 : Mrg := ⟨⟨1.0⟩, ⟨1.0⟩, ⟨1.0⟩, ⟨1.0⟩⟩

/-- Font identifiers come from the external `google_fonts` crate (not part of
this repository). We model the variant the repository uses by name plus a few
representative others; all the code needs of `Font` is decidable equality and
a stable name. -/
inductive Font where
  | DomineVariable
  | Domine
  | Roboto
  | OpenSans
deriving DecidableEq, Repr

/-- Font style of text in a paragraph (src/doc.rs `Style`). -/
inductive Style where
  | Normal
  | Italic
  | Bold
  | BoldItalic
deriving DecidableEq, Repr

/-- Horizontal text alignment (src/doc.rs `Align`). -/
inductive Align where
  | Left
  | Right
  | Center
  | Justify
deriving DecidableEq, Repr

/-- Line spacing (src/doc.rs `LineSpace`): fixed single/double or a custom multiplier. -/
inductive LineSpace where
  | Single
  | Double
  | Custom (val : Float)

/-- `LineSpace::val()` (src/doc.rs). -/
def LineSpace.val : LineSpace → Float
  | .Single => 1.0
  | .Double => 2.0
  | .Custom v => v

/-- A paragraph: text content plus sparse optional overrides of every
document-level formatting field (src/doc.rs `Par`). -/
structure Par where
  ind : Option In
  fnt : Option Font
  fnt_sze : Option Float
  fnt_sty : Option Style
  aln : Option Align
  spc_lne : Option LineSpace
  spc_aft : Option LineSpace
  has_ind : Option Bool
  txt : String

/-- `Par::default()` (derived): every override unset, empty text. -/
def Par.dflt : Par := ⟨none, none, none, none, none, none, none, none, ""⟩

/-- An element of a document (src/doc.rs `Elm`): a paragraph or a page break. -/
inductive Elm where
  | Par (p : Par)
  | PagBrk

/-- A PDF document (src/doc.rs `Doc`): formatting defaults plus the ordered
element sequence. -/
structure Doc where
  sze : Sze
  mrg : Mrg
  ind : In
  fnt : Font
  fnt_sze : Float
  fnt_sty : Style
  aln : Align
  spc_lne : LineSpace
  spc_par_aft : LineSpace
  has_ind : Bool
  elms : List Elm

/-- `impl Default for Doc` (src/doc.rs lines 59-75). -/
def Doc.dflt : Doc :=
  { sze := Sze.dflt
    mrg := Mrg.dflt
    ind := In.dflt
    fnt := Font.DomineVariable
    fnt_sze := 12.0
    fnt_sty := Style.Normal
    aln := Align.Justify
    spc_lne := LineSpace.Custom 1.35
    spc_par_aft := LineSpace.Custom 1.35
    has_ind := true
    elms := [] }

/-- The loop of `Doc::seg_pags` (src/doc.rs lines 232-255): `pages` and
`current_page` are the two mutable accumulators of the Rust loop; a paragraph
is pushed onto the current page, a page break emits the current page when it
is non-empty and is absorbed otherwise; a final non-empty current page is
emitted after the loop. -/
def segPagsLoop : List Elm → List (List Par) → List Par → List (List Par)
  | [], pages, cur => if cur.isEmpty then pages else pages ++ [cur]
  | .Par p :: rest, pages, cur => segPagsLoop rest pages (cur ++ [p])
  | .PagBrk :: rest, pages, cur =>
      if cur.isEmpty then segPagsLoop rest pages cur
      else segPagsLoop rest (pages ++ [cur]) []

/-- `Doc::seg_pags` (src/doc.rs): segments `elms` into pages of paragraphs. -/
def Doc.seg_pags (d : Doc) : List (List Par) := segPagsLoop d.elms [] []

/-- The subsequence of paragraphs of an element sequence, in order. -/
def parsOf (elms : List Elm) : List Par :=
  elms.filterMap fun e => match e with | .Par p => some p | .PagBrk => none

/-- The number of page-break elements in an element sequence. -/
def countBrk (elms : List Elm) : Nat :=
  (elms.filter fun e => match e with | .PagBrk => true | _ => false).length

/-- A document whose fields are all defaults and whose elements are `es`. -/
def mkDoc (es : List Elm) : Doc := { Doc.dflt with elms := es }

/-- A paragraph with the given text and no overrides (src/doc.rs `par`). -/
def parTxt (t : String) : Par := { Par.dflt with txt := t }

/-- `Doc::copy_pars` (src/doc.rs lines 258-260): appends clones of the other
document's elements to the receiver. The Rust body only reads the source
(`doc.elms.iter().cloned()`); in this value-level embedding the source
argument is untouched by construction. -/
def Doc.copy_pars (dst : Doc) (src : Doc) : Doc :=
  { dst with elms := dst.elms ++ src.elms }

/-- `Doc::add_par` (src/doc.rs): push a paragraph element. -/
def Doc.add_par (d : Doc) (p : Par) : Doc := { d with elms := d.elms ++ [.Par p] }

/-- `Doc::add_pag_brk` (src/doc.rs): push a page-break element. -/
def Doc.add_pag_brk (d : Doc) : Doc := { d with elms := d.elms ++ [.PagBrk] }

/-- `pat` is an initial segment of the second list. -/
def leadsWith : List Char → List Char → Bool
  | [], _ => true
  | _ :: _, [] => false
  | p :: ps, c :: cs => p == c && leadsWith ps cs

/-- Modelled from the spec: the scan of Rust std `str::replace` (used by
`Doc::replace_par_at` and `Par::replace`; the std implementation is outside
this repository). Left-to-right, non-overlapping: at skip count 0, a position
where the (non-empty) pattern matches emits the replacement and consumes the
matched characters; otherwise the character is copied. -/
def replaceGo (pat rep : List Char) : List Char → Nat → List Char
  | [], _ => []
  | _ :: cs, Nat.succ k => replaceGo pat rep cs k
  | c :: cs, 0 =>
      if leadsWith pat (c :: cs) then rep ++ replaceGo pat rep cs (pat.length - 1)
      else c :: replaceGo pat rep cs 0

/-- Modelled from the spec: Rust std `str::replace(from, to)`, replacing every
literal occurrence of `from` with `to`. An empty pattern matches at every
character boundary, including both ends. -/
def rustReplace (s pat rep : String) : String :=
  match pat.data with
  | [] => ⟨rep.data ++ s.data.flatMap (fun c => c :: rep.data)⟩
  | _ :: _ => ⟨replaceGo pat.data rep.data s.data 0⟩

/-- `Doc::replace_par_at` (src/doc.rs lines 273-277): if the element at `idx`
exists and is a paragraph, replace every occurrence of `fr` by `t` in its
text; otherwise do nothing. -/
def Doc.replace_par_at (d : Doc) (idx : Nat) (fr t : String) : Doc :=
  match d.elms[idx]? with
  | some (.Par p) =>
      { d with elms := d.elms.set idx (.Par { p with txt := rustReplace p.txt fr t }) }
  | _ => d

/-- `Doc::set_sze` (src/doc.rs): sets the size. -/
def Doc.set_sze (d : Doc) (sze : Sze) : Doc := { d with sze := sze }

/-- `Doc::set_mrg` (src/doc.rs): sets the margins. -/
def Doc.set_mrg (d : Doc) (mrg : Mrg) : Doc := { d with mrg := mrg }

/-- `Doc::set_ind` (src/doc.rs): sets the first-line indentation length. -/
def Doc.set_ind (d : Doc) (ind : In) : Doc := { d with ind := ind }

/-- `Doc::set_fnt` (src/doc.rs): sets the font. -/
def Doc.set_fnt (d : Doc) (fnt : Font) : Doc := { d with fnt := fnt }

/-- `Doc::set_fnt_sze` (src/doc.rs): sets the font size. -/
def Doc.set_fnt_sze (d : Doc) (fnt_sze : Float) : Doc := { d with fnt_sze := fnt_sze }

/-- `Doc::set_fnt_sty` (src/doc.rs): sets the font style. -/
def Doc.set_fnt_sty (d : Doc) (sty : Style) : Doc := { d with fnt_sty := sty }

/-- `Doc::set_aln` (src/doc.rs): sets the text alignment. -/
def Doc.set_aln (d : Doc) (aln : Align) : Doc := { d with aln := aln }

/-- `Doc::set_spc_lne` (src/doc.rs): sets the line spacing. -/
def Doc.set_spc_lne (d : Doc) (spc_lne : LineSpace) : Doc := { d with spc_lne := spc_lne }

/-- `Doc::set_spc_par_aft` (src/doc.rs): sets the after-paragraph spacing. -/
def Doc.set_spc_par_aft (d : Doc) (spc_par_aft : LineSpace) : Doc :=
  { d with spc_par_aft := spc_par_aft }

/-- `Doc::set_has_ind` (src/doc.rs): sets the first-line-indent toggle. -/
def Doc.set_has_ind (d : Doc) (has_ind : Bool) : Doc := { d with has_ind := has_ind }

/-- `new_ansi_letter` (src/doc.rs lines 24-30): the default document with
ANSI-letter size, 1in margins, and 0.5in first-line indent. -/
def new_ansi_letter : Doc :=
  ((Doc.dflt.set_sze ANSI_LETTER).set_mrg MRG_IN_1).set_ind ⟨0.5⟩

/-- `Par::set_ind` (src/doc.rs): sets or clears the indentation override. -/
def Par.set_ind (p : Par) (ind : Option In) : Par := { p with ind := ind }

/-- `Par::set_fnt` (src/doc.rs): sets or clears the font override. -/
def Par.set_fnt (p : Par) (fnt : Option Font) : Par := { p with fnt := fnt }

/-- `Par::set_fnt_sze` (src/doc.rs): sets or clears the font-size override. -/
def Par.set_fnt_sze (p : Par) (fnt_sze : Option Float) : Par := { p with fnt_sze := fnt_sze }

/-- `Par::set_fnt_sty` (src/doc.rs): sets or clears the font-style override. -/
def Par.set_fnt_sty (p : Par) (sty : Option Style) : Par := { p with fnt_sty := sty }

/-- `Par::set_aln` (src/doc.rs): sets or clears the alignment override. -/
def Par.set_aln (p : Par) (aln : Option Align) : Par := { p with aln := aln }

/-- `Par::set_spc_lne` (src/doc.rs): sets or clears the line-spacing override. -/
def Par.set_spc_lne (p : Par) (spc_lne : Option LineSpace) : Par := { p with spc_lne := spc_lne }

/-- `Par::set_spc_aft` (src/doc.rs): sets or clears the after-spacing override. -/
def Par.set_spc_aft (p : Par) (spc_aft : Option LineSpace) : Par := { p with spc_aft := spc_aft }

/-- `Par::set_has_ind` (src/doc.rs): sets or clears the indent-toggle override. -/
def Par.set_has_ind (p : Par) (has_ind : Option Bool) : Par := { p with has_ind := has_ind }

/-- `Par::set_txt` (src/doc.rs): sets the text content. -/
def Par.set_txt (p : Par) (txt : String) : Par := { p with txt := txt }

/-- `Par::replace` (src/doc.rs lines 562-564): in-place literal substitution
on the paragraph text. -/
def Par.replace (p : Par) (fr t : String) : Par := { p with txt := rustReplace p.txt fr t }

/-- The formatting attributes the rendering driver uses for one paragraph. -/
structure Resolved where
  fnt : Font
  fnt_sze : Float
  spc_lne : LineSpace
  fnt_sty : Style
  aln : Align
  has_ind : Bool
  ind : In
  spc_aft : LineSpace

/-- The attribute resolution performed by `Doc::wrt_pag` (src/doc.rs lines
165-222): each formatting attribute is the paragraph's override when present
and the document default otherwise — every lookup in the source is a direct
`par.X.unwrap_or(self.X)` (for `ind`, `par.ind.as_ref().unwrap_or(&self.ind)`
inside the indent branch; for `spc_aft`, the default is the document's
`spc_par_aft`). -/
def resolvePar (d : Doc) (p : Par) : Resolved :=
  { fnt := p.fnt.getD d.fnt
    fnt_sze := p.fnt_sze.getD d.fnt_sze
    spc_lne := p.spc_lne.getD d.spc_lne
    fnt_sty := p.fnt_sty.getD d.fnt_sty
    aln := p.aln.getD d.aln
    has_ind := p.has_ind.getD d.has_ind
    ind := p.ind.getD d.ind
    spc_aft := p.spc_aft.getD d.spc_par_aft }

/-- A JSON value, the shape of the persistence format (spec section 6). -/
inductive Json where
  | null
  | bool (b : Bool)
  | num (x : Float)
  | str (s : String)
  | arr (xs : List Json)
  | obj (kvs : List (String × Json))

/-- The serialized name of a font variant. -/
def encFont : Font → Json
  | .DomineVariable => .str "DomineVariable"
  | .Domine => .str "Domine"
  | .Roboto => .str "Roboto"
  | .OpenSans => .str "OpenSans"

/-- Decode a font from its serialized name. -/
def decFont : Json → Option Font
  | .str "DomineVariable" => some .DomineVariable
  | .str "Domine" => some .Domine
  | .str "Roboto" => some .Roboto
  | .str "OpenSans" => some .OpenSans
  | _ => none

/-- Encode a font style by variant name (serde external tagging). -/
def encStyle : Style → Json
  | .Normal => .str "Normal"
  | .Italic => .str "Italic"
  | .Bold => .str "Bold"
  | .BoldItalic => .str "BoldItalic"

/-- Decode a font style. -/
def decStyle : Json → Option Style
  | .str "Normal" => some .Normal
  | .str "Italic" => some .Italic
  | .str "Bold" => some .Bold
  | .str "BoldItalic" => some .BoldItalic
  | _ => none

/-- Encode an alignment by variant name. -/
def encAlign : Align → Json
  | .Left => .str "Left"
  | .Right => .str "Right"
  | .Center => .str "Center"
  | .Justify => .str "Justify"

/-- Decode an alignment. -/
def decAlign : Json → Option Align
  | .str "Left" => some .Left
  | .str "Right" => some .Right
  | .str "Center" => some .Center
  | .str "Justify" => some .Justify
  | _ => none

/-- Encode a line spacing: unit variants by name, `Custom` externally tagged. -/
def encLineSpace : LineSpace → Json
  | .Single => .str "Single"
  | .Double => .str "Double"
  | .Custom v => .obj [("Custom", .num v)]

/-- Decode a line spacing. -/
def decLineSpace : Json → Option LineSpace
  | .str "Single" => some .Single
  | .str "Double" => some .Double
  | .obj [("Custom", .num v)] => some (.Custom v)
  | _ => none

/-- Encode an `In`: a serde newtype struct serializes as its inner value. -/
def encIn (i : In) : Json := .num i.val

/-- Decode an `In`. -/
def decIn : Json → Option In
  | .num x => some ⟨x⟩
  | _ => none

/-- Encode a `Sze` as an object with its two named fields. -/
def encSze (s : Sze) : Json := .obj [("width", encIn s.width), ("height", encIn s.height)]

/-- Decode a `Sze`. -/
def decSze : Json → Option Sze
  | .obj [("width", jw), ("height", jh)] => do
      let w ← decIn jw
      let h ← decIn jh
      some ⟨w, h⟩
  | _ => none

/-- Encode a `Mrg` as an object with its four named fields. -/
def encMrg (m : Mrg) : Json :=
  .obj [("lft", encIn m.lft), ("rht", encIn m.rht), ("btm", encIn m.btm), ("top", encIn m.top)]

/-- Decode a `Mrg`. -/
def decMrg : Json → Option Mrg
  | .obj [("lft", j1), ("rht", j2), ("btm", j3), ("top", j4)] => do
      let a ← decIn j1
      let b ← decIn j2
      let c ← decIn j3
      let e ← decIn j4
      some ⟨a, b, c, e⟩
  | _ => none

/-- Decode a raw number. -/
def decNum : Json → Option Float
  | .num x => some x
  | _ => none

/-- Decode a raw boolean. -/
def decBool : Json → Option Bool
  | .bool b => some b
  | _ => none

/-- Decode a raw string. -/
def decStr : Json → Option String
  | .str s => some s
  | _ => none

/-- A field that is present only when its value is: the effect of
`#[serde(skip_serializing_if = "Option::is_none")]` on every optional `Par`
field (src/doc.rs lines 525-553) — an unset field is omitted, never written
as an explicit null. -/
def optField (k : String) (o : Option Json) : List (String × Json) :=
  match o with
  | none => []
  | some j => [(k, j)]

/-- Modelled from the spec: the serde-derived encoding of `Par`
(src/doc.rs lines 525-553; the derived codec itself is generated code outside
src/). Fields appear in declaration order; each optional field is emitted via
`optField`; the mandatory `txt` field is always last. -/
def encParKvs (p : Par) : List (String × Json) :=
  optField "ind" (p.ind.map encIn) ++
  optField "fnt" (p.fnt.map encFont) ++
  optField "fnt_sze" (p.fnt_sze.map Json.num) ++
  optField "fnt_sty" (p.fnt_sty.map encStyle) ++
  optField "aln" (p.aln.map encAlign) ++
  optField "spc_lne" (p.spc_lne.map encLineSpace) ++
  optField "spc_aft" (p.spc_aft.map encLineSpace) ++
  optField "has_ind" (p.has_ind.map Json.bool) ++
  [("txt", Json.str p.txt)]

/-- Encode a `Par` as a JSON object. -/
def encPar (p : Par) : Json := .obj (encParKvs p)

/-- Read an optional field: absence decodes to `none`; a present field must
decode. -/
def getOpt {α : Type} (kvs : List (String × Json)) (k : String)
    (dec : Json → Option α) : Option (Option α) :=
  match kvs.lookup k with
  | none => some none
  | some j => (dec j).map some

/-- Modelled from the spec: the serde-derived decoding of `Par`; field lookup
is by name, unset optional fields default to `none`. -/
def decPar : Json → Option Par
  | .obj kvs => do
      let ind ← getOpt kvs "ind" decIn
      let fnt ← getOpt kvs "fnt" decFont
      let fnt_sze ← getOpt kvs "fnt_sze" decNum
      let fnt_sty ← getOpt kvs "fnt_sty" decStyle
      let aln ← getOpt kvs "aln" decAlign
      let spc_lne ← getOpt kvs "spc_lne" decLineSpace
      let spc_aft ← getOpt kvs "spc_aft" decLineSpace
      let has_ind ← getOpt kvs "has_ind" decBool
      let txt ← (kvs.lookup "txt").bind decStr
      some ⟨ind, fnt, fnt_sze, fnt_sty, aln, spc_lne, spc_aft, has_ind, txt⟩
  | _ => none

/-- Encode an element: serde external tagging for a tuple variant and a bare
name for a unit variant. -/
def encElm : Elm → Json
  | .Par p => .obj [("Par", encPar p)]
  | .PagBrk => .str "PagBrk"

/-- Decode an element. -/
def decElm : Json → Option Elm
  | .obj [("Par", j)] => (decPar j).map Elm.Par
  | .str "PagBrk" => some .PagBrk
  | _ => none

/-- Decode a list of elements, failing if any element fails. -/
def decElms : List Json → Option (List Elm)
  | [] => some []
  | j :: js => do
      let e ← decElm j
      let es ← decElms js
      some (e :: es)

/-- Modelled from the spec: the serde-derived encoding of `Doc`
(src/doc.rs lines 33-57): all eleven fields, in declaration order. -/
def encDoc (d : Doc) : Json :=
  .obj [("sze", encSze d.sze), ("mrg", encMrg d.mrg), ("ind", encIn d.ind),
        ("fnt", encFont d.fnt), ("fnt_sze", .num d.fnt_sze),
        ("fnt_sty", encStyle d.fnt_sty), ("aln", encAlign d.aln),
        ("spc_lne", encLineSpace d.spc_lne),
        ("spc_par_aft", encLineSpace d.spc_par_aft),
        ("has_ind", .bool d.has_ind), ("elms", .arr (d.elms.map encElm))]

/-- Read a mandatory field: it must be present and must decode. -/
def getReq {α : Type} (kvs : List (String × Json)) (k : String)
    (dec : Json → Option α) : Option α :=
  (kvs.lookup k).bind dec

/-- Decode the element array. -/
def decElmArr : Json → Option (List Elm)
  | .arr js => decElms js
  | _ => none

/-- Modelled from the spec: the serde-derived decoding of `Doc`; every field
is mandatory and looked up by name. -/
def decDoc : Json → Option Doc
  | .obj kvs => do
      let sze ← getReq kvs "sze" decSze
      let mrg ← getReq kvs "mrg" decMrg
      let ind ← getReq kvs "ind" decIn
      let fnt ← getReq kvs "fnt" decFont
      let fnt_sze ← getReq kvs "fnt_sze" decNum
      let fnt_sty ← getReq kvs "fnt_sty" decStyle
      let aln ← getReq kvs "aln" decAlign
      let spc_lne ← getReq kvs "spc_lne" decLineSpace
      let spc_par_aft ← getReq kvs "spc_par_aft" decLineSpace
      let has_ind ← getReq kvs "has_ind" decBool
      let elms ← getReq kvs "elms" decElmArr
      some ⟨sze, mrg, ind, fnt, fnt_sze, fnt_sty, aln, spc_lne, spc_par_aft, has_ind, elms⟩
  | _ => none

lemma segPagsLoop_join (elms : List Elm) :
    ∀ (pages : List (List Par)) (cur : List Par),
      (segPagsLoop elms pages cur).flatten = pages.flatten ++ cur ++ parsOf elms := by
  induction elms with
  | nil =>
      intro pages cur
      by_cases h : cur.isEmpty
      · simp [segPagsLoop, h, List.isEmpty_iff.mp h, parsOf]
      · simp [segPagsLoop, h, parsOf]
  | cons e rest ih =>
      intro pages cur
      cases e with
      | Par p => simp [segPagsLoop, ih, parsOf, List.append_assoc]
      | PagBrk =>
          by_cases h : cur.isEmpty
          · simp [segPagsLoop, h, ih, List.isEmpty_iff.mp h, parsOf]
          · simp [segPagsLoop, h, ih, parsOf]

lemma segPagsLoop_len (elms : List Elm) :
    ∀ (pages : List (List Par)) (cur : List Par),
      (segPagsLoop elms pages cur).length ≤ pages.length + countBrk elms + 1 := by
  induction elms with
  | nil =>
      intro pages cur
      by_cases h : cur.isEmpty
      · simp [segPagsLoop, h, countBrk]
      · simp [segPagsLoop, h, countBrk]
  | cons e rest ih =>
      intro pages cur
      cases e with
      | Par p =>
          have := ih pages (cur ++ [p])
          simpa [segPagsLoop, countBrk] using this
      | PagBrk =>
          by_cases h : cur.isEmpty
          · have := ih pages cur
            simp [segPagsLoop, h, countBrk] at this ⊢
            omega
          · have := ih (pages ++ [cur]) []
            simp [segPagsLoop, h, countBrk] at this ⊢
            omega

lemma segPagsLoop_ne_nil (elms : List Elm) :
    ∀ (pages : List (List Par)) (cur : List Par),
      (∀ pg ∈ pages, pg ≠ []) →
      ∀ pg ∈ segPagsLoop elms pages cur, pg ≠ [] := by
  induction elms with
  | nil =>
      intro pages cur hp pg hpg
      by_cases h : cur.isEmpty
      · exact hp pg (by simpa [segPagsLoop, h] using hpg)
      · rcases (by simpa [segPagsLoop, h] using hpg : pg ∈ pages ∨ pg = cur) with h1 | rfl
        · exact hp pg h1
        · simpa [List.isEmpty_iff] using h
  | cons e rest ih =>
      intro pages cur hp pg hpg
      cases e with
      | Par p => exact ih pages (cur ++ [p]) hp pg (by simpa [segPagsLoop] using hpg)
      | PagBrk =>
          by_cases h : cur.isEmpty
          · exact ih pages cur hp pg (by simpa [segPagsLoop, h] using hpg)
          · refine ih (pages ++ [cur]) [] ?_ pg (by simpa [segPagsLoop, h] using hpg)
            intro q hq
            rcases List.mem_append.mp hq with h1 | h1
            · exact hp q h1
            · rcases List.mem_singleton.mp h1 with rfl
              simpa [List.isEmpty_iff] using h

lemma segPagsLoop_no_pars (elms : List Elm) (hnp : parsOf elms = []) :
    ∀ (pages : List (List Par)), segPagsLoop elms pages [] = pages := by
  induction elms with
  | nil => intro pages; simp [segPagsLoop]
  | cons e rest ih =>
      intro pages
      cases e with
      | Par p => simp [parsOf] at hnp
      | PagBrk =>
          have hr : parsOf rest = [] := by simpa [parsOf] using hnp
          simp [segPagsLoop, ih hr]

/-- Claim C1: concatenating the paragraphs of all pages returned by `seg_pags`, in
page order then within-page order, yields exactly the subsequence of
paragraph elements of the input, in original order. -/
theorem seg_pags_concat_eq_pars (d : Doc) :
    (d.seg_pags).flatten = parsOf d.elms := by
  simpa using segPagsLoop_join d.elms [] []

/-- Claim C2: `seg_pags` emits at most (number of page breaks + 1) pages, never
emits an empty page, and emits zero pages whenever the document contains no
paragraph elements, however many page breaks it has. -/
theorem seg_pags_invariants (d : Doc) :
    d.seg_pags.length ≤ countBrk d.elms + 1 ∧
    (∀ pg ∈ d.seg_pags, pg ≠ []) ∧
    (parsOf d.elms = [] → d.seg_pags = []) := by
  refine ⟨?_, ?_, ?_⟩
  · simpa using segPagsLoop_len d.elms [] []
  · exact segPagsLoop_ne_nil d.elms [] [] (by simp)
  · intro h; simpa [Doc.seg_pags] using segPagsLoop_no_pars d.elms h []

/-- Witness for C2 at a concrete document `[Par a, PagBrk, PagBrk, Par b, PagBrk]`. -/
theorem seg_pags_invariants_witness :
    (mkDoc [.Par (Par.dflt), .PagBrk, .PagBrk, .Par (Par.dflt), .PagBrk]).seg_pags.length ≤
      countBrk (mkDoc [.Par (Par.dflt), .PagBrk, .PagBrk, .Par (Par.dflt), .PagBrk]).elms + 1 ∧
    (∀ pg ∈ (mkDoc [.Par (Par.dflt), .PagBrk, .PagBrk, .Par (Par.dflt), .PagBrk]).seg_pags, pg ≠ []) ∧
    (parsOf (mkDoc [.Par (Par.dflt), .PagBrk, .PagBrk, .Par (Par.dflt), .PagBrk]).elms = [] →
      (mkDoc [.Par (Par.dflt), .PagBrk, .PagBrk, .Par (Par.dflt), .PagBrk]).seg_pags = []) :=
  seg_pags_invariants (mkDoc [.Par (Par.dflt), .PagBrk, .PagBrk, .Par (Par.dflt), .PagBrk])

/-- Claim C3: the five pagination boundary cases. With `a = parTxt "a"` and
`b = parTxt "b"`: `[] → []`; `[PagBrk] → []`;
`[Par a, PagBrk, PagBrk, Par b] → [[a],[b]]`; `[PagBrk, Par a] → [[a]]`;
`[Par a, Par b] → [[a, b]]`. -/
theorem seg_pags_boundary_cases :
    (mkDoc []).seg_pags = [] ∧
    (mkDoc [.PagBrk]).seg_pags = [] ∧
    (mkDoc [.Par (parTxt "a"), .PagBrk, .PagBrk, .Par (parTxt "b")]).seg_pags
      = [[parTxt "a"], [parTxt "b"]] ∧
    (mkDoc [.PagBrk, .Par (parTxt "a")]).seg_pags = [[parTxt "a"]] ∧
    (mkDoc [.Par (parTxt "a"), .Par (parTxt "b")]).seg_pags
      = [[parTxt "a", parTxt "b"]] :=
  ⟨rfl, rfl, rfl, rfl, rfl⟩

/-- Claim C9: each builder setter returns the receiver with exactly the named field
replaced and every other field (the element sequence included) unchanged;
`add_par` and `add_pag_brk` append exactly one element to the element
sequence and change no other field. All are total functions: none can fail. -/
theorem doc_setters_frame (d : Doc) (s : Sze) (m : Mrg) (i : In) (f : Font)
    (x : Float) (st : Style) (al : Align) (l1 l2 : LineSpace) (b : Bool) (p : Par) :
    (d.set_sze s).sze = s ∧
    (d.set_sze s).mrg = d.mrg ∧
    (d.set_sze s).ind = d.ind ∧
    (d.set_sze s).fnt = d.fnt ∧
    (d.set_sze s).fnt_sze = d.fnt_sze ∧
    (d.set_sze s).fnt_sty = d.fnt_sty ∧
    (d.set_sze s).aln = d.aln ∧
    (d.set_sze s).spc_lne = d.spc_lne ∧
    (d.set_sze s).spc_par_aft = d.spc_par_aft ∧
    (d.set_sze s).has_ind = d.has_ind ∧
    (d.set_sze s).elms = d.elms ∧
    (d.set_mrg m).mrg = m ∧
    (d.set_mrg m).sze = d.sze ∧
    (d.set_mrg m).ind = d.ind ∧
    (d.set_mrg m).fnt = d.fnt ∧
    (d.set_mrg m).fnt_sze = d.fnt_sze ∧
    (d.set_mrg m).fnt_sty = d.fnt_sty ∧
    (d.set_mrg m).aln = d.aln ∧
    (d.set_mrg m).spc_lne = d.spc_lne ∧
    (d.set_mrg m).spc_par_aft = d.spc_par_aft ∧
    (d.set_mrg m).has_ind = d.has_ind ∧
    (d.set_mrg m).elms = d.elms ∧
    (d.set_ind i).ind = i ∧
    (d.set_ind i).sze = d.sze ∧
    (d.set_ind i).mrg = d.mrg ∧
    (d.set_ind i).fnt = d.fnt ∧
    (d.set_ind i).fnt_sze = d.fnt_sze ∧
    (d.set_ind i).fnt_sty = d.fnt_sty ∧
    (d.set_ind i).aln = d.aln ∧
    (d.set_ind i).spc_lne = d.spc_lne ∧
    (d.set_ind i).spc_par_aft = d.spc_par_aft ∧
    (d.set_ind i).has_ind = d.has_ind ∧
    (d.set_ind i).elms = d.elms ∧
    (d.set_fnt f).fnt = f ∧
    (d.set_fnt f).sze = d.sze ∧
    (d.set_fnt f).mrg = d.mrg ∧
    (d.set_fnt f).ind = d.ind ∧
    (d.set_fnt f).fnt_sze = d.fnt_sze ∧
    (d.set_fnt f).fnt_sty = d.fnt_sty ∧
    (d.set_fnt f).aln = d.aln ∧
    (d.set_fnt f).spc_lne = d.spc_lne ∧
    (d.set_fnt f).spc_par_aft = d.spc_par_aft ∧
    (d.set_fnt f).has_ind = d.has_ind ∧
    (d.set_fnt f).elms = d.elms ∧
    (d.set_fnt_sze x).fnt_sze = x ∧
    (d.set_fnt_sze x).sze = d.sze ∧
    (d.set_fnt_sze x).mrg = d.mrg ∧
    (d.set_fnt_sze x).ind = d.ind ∧
    (d.set_fnt_sze x).fnt = d.fnt ∧
    (d.set_fnt_sze x).fnt_sty = d.fnt_sty ∧
    (d.set_fnt_sze x).aln = d.aln ∧
    (d.set_fnt_sze x).spc_lne = d.spc_lne ∧
    (d.set_fnt_sze x).spc_par_aft = d.spc_par_aft ∧
    (d.set_fnt_sze x).has_ind = d.has_ind ∧
    (d.set_fnt_sze x).elms = d.elms ∧
    (d.set_fnt_sty st).fnt_sty = st ∧
    (d.set_fnt_sty st).sze = d.sze ∧
    (d.set_fnt_sty st).mrg = d.mrg ∧
    (d.set_fnt_sty st).ind = d.ind ∧
    (d.set_fnt_sty st).fnt = d.fnt ∧
    (d.set_fnt_sty st).fnt_sze = d.fnt_sze ∧
    (d.set_fnt_sty st).aln = d.aln ∧
    (d.set_fnt_sty st).spc_lne = d.spc_lne ∧
    (d.set_fnt_sty st).spc_par_aft = d.spc_par_aft ∧
    (d.set_fnt_sty st).has_ind = d.has_ind ∧
    (d.set_fnt_sty st).elms = d.elms ∧
    (d.set_aln al).aln = al ∧
    (d.set_aln al).sze = d.sze ∧
    (d.set_aln al).mrg = d.mrg ∧
    (d.set_aln al).ind = d.ind ∧
    (d.set_aln al).fnt = d.fnt ∧
    (d.set_aln al).fnt_sze = d.fnt_sze ∧
    (d.set_aln al).fnt_sty = d.fnt_sty ∧
    (d.set_aln al).spc_lne = d.spc_lne ∧
    (d.set_aln al).spc_par_aft = d.spc_par_aft ∧
    (d.set_aln al).has_ind = d.has_ind ∧
    (d.set_aln al).elms = d.elms ∧
    (d.set_spc_lne l1).spc_lne = l1 ∧
    (d.set_spc_lne l1).sze = d.sze ∧
    (d.set_spc_lne l1).mrg = d.mrg ∧
    (d.set_spc_lne l1).ind = d.ind ∧
    (d.set_spc_lne l1).fnt = d.fnt ∧
    (d.set_spc_lne l1).fnt_sze = d.fnt_sze ∧
    (d.set_spc_lne l1).fnt_sty = d.fnt_sty ∧
    (d.set_spc_lne l1).aln = d.aln ∧
    (d.set_spc_lne l1).spc_par_aft = d.spc_par_aft ∧
    (d.set_spc_lne l1).has_ind = d.has_ind ∧
    (d.set_spc_lne l1).elms = d.elms ∧
    (d.set_spc_par_aft l2).spc_par_aft = l2 ∧
    (d.set_spc_par_aft l2).sze = d.sze ∧
    (d.set_spc_par_aft l2).mrg = d.mrg ∧
    (d.set_spc_par_aft l2).ind = d.ind ∧
    (d.set_spc_par_aft l2).fnt = d.fnt ∧
    (d.set_spc_par_aft l2).fnt_sze = d.fnt_sze ∧
    (d.set_spc_par_aft l2).fnt_sty = d.fnt_sty ∧
    (d.set_spc_par_aft l2).aln = d.aln ∧
    (d.set_spc_par_aft l2).spc_lne = d.spc_lne ∧
    (d.set_spc_par_aft l2).has_ind = d.has_ind ∧
    (d.set_spc_par_aft l2).elms = d.elms ∧
    (d.set_has_ind b).has_ind = b ∧
    (d.set_has_ind b).sze = d.sze ∧
    (d.set_has_ind b).mrg = d.mrg ∧
    (d.set_has_ind b).ind = d.ind ∧
    (d.set_has_ind b).fnt = d.fnt ∧
    (d.set_has_ind b).fnt_sze = d.fnt_sze ∧
    (d.set_has_ind b).fnt_sty = d.fnt_sty ∧
    (d.set_has_ind b).aln = d.aln ∧
    (d.set_has_ind b).spc_lne = d.spc_lne ∧
    (d.set_has_ind b).spc_par_aft = d.spc_par_aft ∧
    (d.set_has_ind b).elms = d.elms ∧
    (d.add_par p).elms = d.elms ++ [Elm.Par p] ∧
    (d.add_par p).elms.length = d.elms.length + 1 ∧
    (d.add_par p).sze = d.sze ∧
    (d.add_par p).mrg = d.mrg ∧
    (d.add_par p).ind = d.ind ∧
    (d.add_par p).fnt = d.fnt ∧
    (d.add_par p).fnt_sze = d.fnt_sze ∧
    (d.add_par p).fnt_sty = d.fnt_sty ∧
    (d.add_par p).aln = d.aln ∧
    (d.add_par p).spc_lne = d.spc_lne ∧
    (d.add_par p).spc_par_aft = d.spc_par_aft ∧
    (d.add_par p).has_ind = d.has_ind ∧
    (d.add_pag_brk).elms = d.elms ++ [Elm.PagBrk] ∧
    (d.add_pag_brk).elms.length = d.elms.length + 1 ∧
    (d.add_pag_brk).sze = d.sze ∧
    (d.add_pag_brk).mrg = d.mrg ∧
    (d.add_pag_brk).ind = d.ind ∧
    (d.add_pag_brk).fnt = d.fnt ∧
    (d.add_pag_brk).fnt_sze = d.fnt_sze ∧
    (d.add_pag_brk).fnt_sty = d.fnt_sty ∧
    (d.add_pag_brk).aln = d.aln ∧
    (d.add_pag_brk).spc_lne = d.spc_lne ∧
    (d.add_pag_brk).spc_par_aft = d.spc_par_aft ∧
    (d.add_pag_brk).has_ind = d.has_ind := by
  repeat' apply And.intro
  all_goals first | rfl | simp [Doc.add_par, Doc.add_pag_brk]

/-- Claim C4: after `dst.copy_pars src` the element sequence of the result is
`dst`'s old sequence followed by a copy of `src`'s elements in order, the
element count grows by exactly `src`'s count, and every other field of the
receiver is unchanged. The operation never reads `src` except to clone its
elements, so the source value is unchanged and remains usable. -/
theorem copy_pars_frame (dst src : Doc) :
    (dst.copy_pars src).elms = dst.elms ++ src.elms ∧
    (dst.copy_pars src).elms.length = dst.elms.length + src.elms.length ∧
    (dst.copy_pars src).sze = dst.sze ∧
    (dst.copy_pars src).mrg = dst.mrg ∧
    (dst.copy_pars src).ind = dst.ind ∧
    (dst.copy_pars src).fnt = dst.fnt ∧
    (dst.copy_pars src).fnt_sze = dst.fnt_sze ∧
    (dst.copy_pars src).fnt_sty = dst.fnt_sty ∧
    (dst.copy_pars src).aln = dst.aln ∧
    (dst.copy_pars src).spc_lne = dst.spc_lne ∧
    (dst.copy_pars src).spc_par_aft = dst.spc_par_aft ∧
    (dst.copy_pars src).has_ind = dst.has_ind := by
  refine ⟨rfl, ?_, rfl, rfl, rfl, rfl, rfl, rfl, rfl, rfl, rfl, rfl⟩
  simp [Doc.copy_pars]

/-- Claim C5: `replace_par_at idx fr t` replaces every literal occurrence of `fr`
with `t` in the text of the paragraph at `idx` when that element exists and
is a paragraph — leaving every other element and every other document field
unchanged — and is a silent no-op (the document is returned entirely
unchanged, no error signalled) when the index is out of range or the element
is a page break. -/
theorem replace_par_at_contract (d : Doc) (idx : Nat) (fr t : String) :
    (∀ p : Par, d.elms[idx]? = some (.Par p) →
      (d.replace_par_at idx fr t).elms
          = d.elms.set idx (.Par { p with txt := rustReplace p.txt fr t }) ∧
      (∀ j : Nat, j ≠ idx → (d.replace_par_at idx fr t).elms[j]? = d.elms[j]?) ∧
      (d.replace_par_at idx fr t).elms.length = d.elms.length ∧
      (d.replace_par_at idx fr t).sze = d.sze ∧
      (d.replace_par_at idx fr t).mrg = d.mrg ∧
      (d.replace_par_at idx fr t).ind = d.ind ∧
      (d.replace_par_at idx fr t).fnt = d.fnt ∧
      (d.replace_par_at idx fr t).fnt_sze = d.fnt_sze ∧
      (d.replace_par_at idx fr t).fnt_sty = d.fnt_sty ∧
      (d.replace_par_at idx fr t).aln = d.aln ∧
      (d.replace_par_at idx fr t).spc_lne = d.spc_lne ∧
      (d.replace_par_at idx fr t).spc_par_aft = d.spc_par_aft ∧
      (d.replace_par_at idx fr t).has_ind = d.has_ind) ∧
    (d.elms.length ≤ idx → d.replace_par_at idx fr t = d) ∧
    (d.elms[idx]? = some .PagBrk → d.replace_par_at idx fr t = d) := by
  refine ⟨?_, ?_, ?_⟩
  · intro p hp
    simp only [Doc.replace_par_at, hp]
    repeat' apply And.intro
    all_goals first
      | rfl
      | trivial
      | (intro j hj; exact List.getElem?_set_ne (Ne.symm hj))
      | simp
  · intro h
    have hn : d.elms[idx]? = none := by
      simp [List.getElem?_eq_none h]
    simp [Doc.replace_par_at, hn]
  · intro h
    simp [Doc.replace_par_at, h]

/-- Witness for C5: on `[Par "abcabc"]` at index 0, replacing "abc" by "z"
rewrites the stored paragraph text; at index 1 (out of range) the document is
unchanged. -/
theorem replace_par_at_contract_witness :
    (mkDoc [.Par (parTxt "abcabc")]).elms[0]? = some (.Par (parTxt "abcabc")) ∧
    ((mkDoc [.Par (parTxt "abcabc")]).replace_par_at 0 "abc" "z").elms
      = (mkDoc [.Par (parTxt "abcabc")]).elms.set 0
          (.Par { parTxt "abcabc" with txt := rustReplace (parTxt "abcabc").txt "abc" "z" }) ∧
    (mkDoc [.Par (parTxt "abcabc")]).elms.length ≤ 1 ∧
    (mkDoc [.Par (parTxt "abcabc")]).replace_par_at 1 "abc" "z" = mkDoc [.Par (parTxt "abcabc")] :=
  ⟨rfl,
   ((replace_par_at_contract (mkDoc [.Par (parTxt "abcabc")]) 0 "abc" "z").1
      (parTxt "abcabc") rfl).1,
   by simp [mkDoc],
   ((replace_par_at_contract (mkDoc [.Par (parTxt "abcabc")]) 1 "abc" "z").2.1
      (by simp [mkDoc]))⟩

/-- Claim C8: `In(v).pt()` is exactly `v * 72.0`, with the points-per-inch constant
fixed at 72. -/
theorem In_pt_eq (v : Float) : (In.mk v).pt = v * 72.0 ∧ PT_PER_IN = 72.0 :=
  ⟨rfl, rfl⟩

/-- Claim C10: `new_ansi_letter` is 8.5in x 11in with 1in margins and a 0.5in
first-line indent, and every remaining field equals the default document's
value: font `DomineVariable`, font size 12.0, style `Normal`, alignment
`Justify`, line spacing `Custom 1.35`, after-paragraph spacing `Custom 1.35`,
first-line indent enabled, empty element sequence. -/
theorem new_ansi_letter_fields :
    new_ansi_letter.sze = ⟨⟨8.5⟩, ⟨11.0⟩⟩ ∧
    new_ansi_letter.mrg = ⟨⟨1.0⟩, ⟨1.0⟩, ⟨1.0⟩, ⟨1.0⟩⟩ ∧
    new_ansi_letter.ind = ⟨0.5⟩ ∧
    new_ansi_letter.fnt = Font.DomineVariable ∧
    new_ansi_letter.fnt_sze = 12.0 ∧
    new_ansi_letter.fnt_sty = Style.Normal ∧
    new_ansi_letter.aln = Align.Justify ∧
    new_ansi_letter.spc_lne = LineSpace.Custom 1.35 ∧
    new_ansi_letter.spc_par_aft = LineSpace.Custom 1.35 ∧
    new_ansi_letter.has_ind = true ∧
    new_ansi_letter.elms = [] ∧
    new_ansi_letter.fnt = Doc.dflt.fnt ∧
    new_ansi_letter.fnt_sze = Doc.dflt.fnt_sze ∧
    new_ansi_letter.fnt_sty = Doc.dflt.fnt_sty ∧
    new_ansi_letter.aln = Doc.dflt.aln ∧
    new_ansi_letter.spc_lne = Doc.dflt.spc_lne ∧
    new_ansi_letter.spc_par_aft = Doc.dflt.spc_par_aft ∧
    new_ansi_letter.has_ind = Doc.dflt.has_ind ∧
    new_ansi_letter.elms = Doc.dflt.elms := by
  repeat' apply And.intro
  all_goals rfl

lemma decIn_encIn (i : In) : decIn (encIn i) = some i := by
  cases i; rfl

lemma decFont_encFont (f : Font) : decFont (encFont f) = some f := by
  cases f <;> rfl

lemma decStyle_encStyle (st : Style) : decStyle (encStyle st) = some st := by
  cases st <;> rfl

lemma decAlign_encAlign (al : Align) : decAlign (encAlign al) = some al := by
  cases al <;> rfl

lemma decLineSpace_encLineSpace (ls : LineSpace) :
    decLineSpace (encLineSpace ls) = some ls := by
  cases ls <;> rfl

lemma decSze_encSze (sz : Sze) : decSze (encSze sz) = some sz := by
  cases sz with
  | mk w h => cases w; cases h; rfl

lemma decMrg_encMrg (m : Mrg) : decMrg (encMrg m) = some m := by
  cases m with
  | mk a b c e => cases a; cases b; cases c; cases e; rfl

lemma lookup_optField_ne (k k' : String) (o : Option Json)
    (rest : List (String × Json)) (h : (k == k') = false) :
    ((optField k' o ++ rest).lookup k) = rest.lookup k := by
  cases o <;> simp [optField, List.lookup, h]

lemma optField_none (k : String) : optField k none = [] := rfl

lemma optField_some (k : String) (j : Json) : optField k (some j) = [(k, j)] := rfl

lemma getOpt_encParKvs_ind (p : Par) : getOpt (encParKvs p) "ind" decIn = some p.ind := by
  cases h : p.ind <;>
    simp [encParKvs, getOpt, optField_none, optField_some, List.lookup, List.append_assoc,
      lookup_optField_ne, decIn_encIn, h]

lemma getOpt_encParKvs_fnt (p : Par) : getOpt (encParKvs p) "fnt" decFont = some p.fnt := by
  cases h : p.fnt <;>
    simp [encParKvs, getOpt, optField_none, optField_some, List.lookup, List.append_assoc,
      lookup_optField_ne, decFont_encFont, h]

lemma getOpt_encParKvs_fnt_sze (p : Par) :
    getOpt (encParKvs p) "fnt_sze" decNum = some p.fnt_sze := by
  cases h : p.fnt_sze <;>
    simp [encParKvs, getOpt, optField_none, optField_some, List.lookup, List.append_assoc,
      lookup_optField_ne, decNum, h]

lemma getOpt_encParKvs_fnt_sty (p : Par) :
    getOpt (encParKvs p) "fnt_sty" decStyle = some p.fnt_sty := by
  cases h : p.fnt_sty <;>
    simp [encParKvs, getOpt, optField_none, optField_some, List.lookup, List.append_assoc,
      lookup_optField_ne, decStyle_encStyle, h]

lemma getOpt_encParKvs_aln (p : Par) : getOpt (encParKvs p) "aln" decAlign = some p.aln := by
  cases h : p.aln <;>
    simp [encParKvs, getOpt, optField_none, optField_some, List.lookup, List.append_assoc,
      lookup_optField_ne, decAlign_encAlign, h]

lemma getOpt_encParKvs_spc_lne (p : Par) :
    getOpt (encParKvs p) "spc_lne" decLineSpace = some p.spc_lne := by
  cases h : p.spc_lne <;>
    simp [encParKvs, getOpt, optField_none, optField_some, List.lookup, List.append_assoc,
      lookup_optField_ne, decLineSpace_encLineSpace, h]

lemma getOpt_encParKvs_spc_aft (p : Par) :
    getOpt (encParKvs p) "spc_aft" decLineSpace = some p.spc_aft := by
  cases h : p.spc_aft <;>
    simp [encParKvs, getOpt, optField_none, optField_some, List.lookup, List.append_assoc,
      lookup_optField_ne, decLineSpace_encLineSpace, h]

lemma getOpt_encParKvs_has_ind (p : Par) :
    getOpt (encParKvs p) "has_ind" decBool = some p.has_ind := by
  cases h : p.has_ind <;>
    simp [encParKvs, getOpt, optField_none, optField_some, List.lookup, List.append_assoc,
      lookup_optField_ne, decBool, h]

lemma lookup_encParKvs_txt (p : Par) :
    (encParKvs p).lookup "txt" = some (Json.str p.txt) := by
  simp [encParKvs, List.append_assoc, lookup_optField_ne, List.lookup]

lemma decPar_encPar (p : Par) : decPar (encPar p) = some p := by
  cases p with
  | mk i f fs fst a sl sa hi t =>
      simp [decPar, encPar, getOpt_encParKvs_ind, getOpt_encParKvs_fnt,
        getOpt_encParKvs_fnt_sze, getOpt_encParKvs_fnt_sty, getOpt_encParKvs_aln,
        getOpt_encParKvs_spc_lne, getOpt_encParKvs_spc_aft, getOpt_encParKvs_has_ind,
        lookup_encParKvs_txt, decStr]

lemma decElm_encElm (e : Elm) : decElm (encElm e) = some e := by
  cases e with
  | Par p => simp [decElm, encElm, decPar_encPar]
  | PagBrk => rfl

lemma decElms_map_encElm (es : List Elm) : decElms (es.map encElm) = some es := by
  induction es with
  | nil => rfl
  | cons e rest ih => simp [decElms, decElm_encElm, ih]

set_option maxHeartbeats 800000 in
lemma decDoc_encDoc (d : Doc) : decDoc (encDoc d) = some d := by
  cases d with
  | mk sz m i f fs fst a sl spa hi es =>
      simp [decDoc, encDoc, getReq, List.lookup, decElmArr, decSze_encSze,
        decMrg_encMrg, decIn_encIn, decFont_encFont, decNum, decStyle_encStyle,
        decAlign_encAlign, decLineSpace_encLineSpace, decBool, decElms_map_encElm]

lemma lookup_encParKvs_ind (p : Par) :
    (encParKvs p).lookup "ind" = p.ind.map encIn := by
  cases h : p.ind <;>
    simp [encParKvs, optField_none, optField_some, List.lookup, List.append_assoc,
      lookup_optField_ne, h]

lemma lookup_encParKvs_fnt (p : Par) :
    (encParKvs p).lookup "fnt" = p.fnt.map encFont := by
  cases h : p.fnt <;>
    simp [encParKvs, optField_none, optField_some, List.lookup, List.append_assoc,
      lookup_optField_ne, h]

lemma lookup_encParKvs_fnt_sze (p : Par) :
    (encParKvs p).lookup "fnt_sze" = p.fnt_sze.map Json.num := by
  cases h : p.fnt_sze <;>
    simp [encParKvs, optField_none, optField_some, List.lookup, List.append_assoc,
      lookup_optField_ne, h]

lemma lookup_encParKvs_fnt_sty (p : Par) :
    (encParKvs p).lookup "fnt_sty" = p.fnt_sty.map encStyle := by
  cases h : p.fnt_sty <;>
    simp [encParKvs, optField_none, optField_some, List.lookup, List.append_assoc,
      lookup_optField_ne, h]

lemma lookup_encParKvs_aln (p : Par) :
    (encParKvs p).lookup "aln" = p.aln.map encAlign := by
  cases h : p.aln <;>
    simp [encParKvs, optField_none, optField_some, List.lookup, List.append_assoc,
      lookup_optField_ne, h]

lemma lookup_encParKvs_spc_lne (p : Par) :
    (encParKvs p).lookup "spc_lne" = p.spc_lne.map encLineSpace := by
  cases h : p.spc_lne <;>
    simp [encParKvs, optField_none, optField_some, List.lookup, List.append_assoc,
      lookup_optField_ne, h]

lemma lookup_encParKvs_spc_aft (p : Par) :
    (encParKvs p).lookup "spc_aft" = p.spc_aft.map encLineSpace := by
  cases h : p.spc_aft <;>
    simp [encParKvs, optField_none, optField_some, List.lookup, List.append_assoc,
      lookup_optField_ne, h]

lemma lookup_encParKvs_has_ind (p : Par) :
    (encParKvs p).lookup "has_ind" = p.has_ind.map Json.bool := by
  cases h : p.has_ind <;>
    simp [encParKvs, optField_none, optField_some, List.lookup, List.append_assoc,
      lookup_optField_ne, h]

lemma encIn_ne_null (i : In) : encIn i ≠ Json.null := by simp [encIn]

lemma encFont_ne_null (f : Font) : encFont f ≠ Json.null := by cases f <;> simp [encFont]

lemma encStyle_ne_null (st : Style) : encStyle st ≠ Json.null := by cases st <;> simp [encStyle]

lemma encAlign_ne_null (al : Align) : encAlign al ≠ Json.null := by cases al <;> simp [encAlign]

lemma encLineSpace_ne_null (ls : LineSpace) : encLineSpace ls ≠ Json.null := by
  cases ls <;> simp [encLineSpace]

lemma num_ne_null (x : Float) : Json.num x ≠ Json.null := by simp

lemma bool_ne_null (b : Bool) : Json.bool b ≠ Json.null := by simp

lemma mem_optField_map_ne_null {α : Type} (k : String) (f : α → Json)
    (hf : ∀ a, f a ≠ Json.null) (o : Option α) :
    ∀ kv ∈ optField k (o.map f), kv.2 ≠ Json.null := by
  cases o with
  | none => intro kv hkv; simp [optField] at hkv
  | some a =>
      intro kv hkv
      simp only [Option.map_some', optField, List.mem_singleton] at hkv
      subst hkv
      exact hf a

lemma encParKvs_no_null (p : Par) : ∀ kv ∈ encParKvs p, kv.2 ≠ Json.null := by
  intro kv hkv
  simp only [encParKvs, List.append_assoc, List.mem_append] at hkv
  rcases hkv with h | h | h | h | h | h | h | h | h
  · exact mem_optField_map_ne_null "ind" encIn encIn_ne_null p.ind kv h
  · exact mem_optField_map_ne_null "fnt" encFont encFont_ne_null p.fnt kv h
  · exact mem_optField_map_ne_null "fnt_sze" Json.num num_ne_null p.fnt_sze kv h
  · exact mem_optField_map_ne_null "fnt_sty" encStyle encStyle_ne_null p.fnt_sty kv h
  · exact mem_optField_map_ne_null "aln" encAlign encAlign_ne_null p.aln kv h
  · exact mem_optField_map_ne_null "spc_lne" encLineSpace encLineSpace_ne_null p.spc_lne kv h
  · exact mem_optField_map_ne_null "spc_aft" encLineSpace encLineSpace_ne_null p.spc_aft kv h
  · exact mem_optField_map_ne_null "has_ind" Json.bool bool_ne_null p.has_ind kv h
  · simp only [List.mem_singleton] at h
    subst h
    simp

lemma rustReplace_eval_examples :
    rustReplace "abcabc" "abc" "z" = "zz" ∧
    rustReplace "aaa" "aa" "b" = "ba" ∧
    rustReplace "abc" "" "-" = "-a-b-c-" := by
  refine ⟨?_, ?_, ?_⟩ <;> rfl

/-- Claim C7: encoding a document to the persistence format and decoding the
result yields the original value (so in particular set-vs-unset optional
paragraph fields are preserved); an unset optional paragraph field is
omitted from the encoding — its key is absent — while a set field is
present with its encoded value, and no field is ever written as an
explicit null. -/
theorem json_round_trip :
    (∀ d : Doc, decDoc (encDoc d) = some d) ∧
    (∀ p : Par, decPar (encPar p) = some p) ∧
    (∀ p : Par,
      (encParKvs p).lookup "ind" = p.ind.map encIn ∧
      (encParKvs p).lookup "fnt" = p.fnt.map encFont ∧
      (encParKvs p).lookup "fnt_sze" = p.fnt_sze.map Json.num ∧
      (encParKvs p).lookup "fnt_sty" = p.fnt_sty.map encStyle ∧
      (encParKvs p).lookup "aln" = p.aln.map encAlign ∧
      (encParKvs p).lookup "spc_lne" = p.spc_lne.map encLineSpace ∧
      (encParKvs p).lookup "spc_aft" = p.spc_aft.map encLineSpace ∧
      (encParKvs p).lookup "has_ind" = p.has_ind.map Json.bool) ∧
    (∀ p : Par, ∀ kv ∈ encParKvs p, kv.2 ≠ Json.null) :=
  ⟨decDoc_encDoc, decPar_encPar,
   fun p => ⟨lookup_encParKvs_ind p, lookup_encParKvs_fnt p, lookup_encParKvs_fnt_sze p,
     lookup_encParKvs_fnt_sty p, lookup_encParKvs_aln p, lookup_encParKvs_spc_lne p,
     lookup_encParKvs_spc_aft p, lookup_encParKvs_has_ind p⟩,
   encParKvs_no_null⟩

/-- Claim C6: the rendering driver resolves every formatting attribute as the
paragraph override when set and the document default when unset (strict
two-level lookup), and setting an override then clearing it with an explicit
`none` restores the document default. -/
theorem resolve_two_level (d : Doc) (p : Par) (f : Font) (x : Float)
    (st : Style) (al : Align) (ls1 ls2 : LineSpace) (b : Bool) (i : In) :
    (p.fnt = some f → (resolvePar d p).fnt = f) ∧
    (p.fnt = none → (resolvePar d p).fnt = d.fnt) ∧
    (resolvePar d ((p.set_fnt (some f)).set_fnt none)).fnt = d.fnt ∧
    (p.fnt_sze = some x → (resolvePar d p).fnt_sze = x) ∧
    (p.fnt_sze = none → (resolvePar d p).fnt_sze = d.fnt_sze) ∧
    (resolvePar d ((p.set_fnt_sze (some x)).set_fnt_sze none)).fnt_sze = d.fnt_sze ∧
    (p.fnt_sty = some st → (resolvePar d p).fnt_sty = st) ∧
    (p.fnt_sty = none → (resolvePar d p).fnt_sty = d.fnt_sty) ∧
    (resolvePar d ((p.set_fnt_sty (some st)).set_fnt_sty none)).fnt_sty = d.fnt_sty ∧
    (p.aln = some al → (resolvePar d p).aln = al) ∧
    (p.aln = none → (resolvePar d p).aln = d.aln) ∧
    (resolvePar d ((p.set_aln (some al)).set_aln none)).aln = d.aln ∧
    (p.spc_lne = some ls1 → (resolvePar d p).spc_lne = ls1) ∧
    (p.spc_lne = none → (resolvePar d p).spc_lne = d.spc_lne) ∧
    (resolvePar d ((p.set_spc_lne (some ls1)).set_spc_lne none)).spc_lne = d.spc_lne ∧
    (p.spc_aft = some ls2 → (resolvePar d p).spc_aft = ls2) ∧
    (p.spc_aft = none → (resolvePar d p).spc_aft = d.spc_par_aft) ∧
    (resolvePar d ((p.set_spc_aft (some ls2)).set_spc_aft none)).spc_aft = d.spc_par_aft ∧
    (p.has_ind = some b → (resolvePar d p).has_ind = b) ∧
    (p.has_ind = none → (resolvePar d p).has_ind = d.has_ind) ∧
    (resolvePar d ((p.set_has_ind (some b)).set_has_ind none)).has_ind = d.has_ind ∧
    (p.ind = some i → (resolvePar d p).ind = i) ∧
    (p.ind = none → (resolvePar d p).ind = d.ind) ∧
    (resolvePar d ((p.set_ind (some i)).set_ind none)).ind = d.ind := by
  repeat' apply And.intro
  all_goals first
    | rfl
    | (intro h; simp [resolvePar, h])

/-- Witness for C6: with the default document, a paragraph carrying a
`Roboto` font override resolves to `Roboto`; a paragraph without overrides
resolves to the document font. -/
theorem resolve_two_level_witness :
    ((parTxt "w").set_fnt (some Font.Roboto)).fnt = some Font.Roboto ∧
    (resolvePar Doc.dflt ((parTxt "w").set_fnt (some Font.Roboto))).fnt = Font.Roboto ∧
    (parTxt "w").fnt = none ∧
    (resolvePar Doc.dflt (parTxt "w")).fnt = Doc.dflt.fnt :=
  ⟨rfl,
   (resolve_two_level Doc.dflt ((parTxt "w").set_fnt (some Font.Roboto)) Font.Roboto
      12.0 Style.Normal Align.Left LineSpace.Single LineSpace.Single true In.dflt).1 rfl,
   rfl,
   (resolve_two_level Doc.dflt (parTxt "w") Font.Roboto
      12.0 Style.Normal Align.Left LineSpace.Single LineSpace.Single true In.dflt).2.1 rfl⟩

end PdfDoc
